import Mathlib

/-!
Shallow embedding of the radio-link framing and Reed-Solomon FEC core:

* `rs_encoding_binary.c`  : GF(2^8) tables, generator polynomial, systematic
  RS(255,223) encoder.
* `rs_decoding_binary.c`  : syndromes, Berlekamp-Massey, Chien search, Forney
  correction, and the per-block file decode loop.
* `ax25_packet.c`         : AX.25 address encoding, CRC-CCITT FCS, frame
  builder and packetizer.

C byte arrays (`uint8_t a[n]`) are embedded as natural numbers holding the
bytes little-endian: byte `i` of the array is `(a >>> (8*i)) &&& 255`.  All
C loops are strict (call-by-value); the combinator `strictNat` forces each
loop-carried value eagerly so that evaluation of the embedding mirrors the
C evaluation order.  C `int` expressions that can go negative are embedded
as `Int` with `Int.tmod` for the C `%` operator (truncated division).
-/

set_option maxRecDepth 2000

/-- Forces a natural number to a numeral before passing it on; semantically
the identity (`strictNat n k = k n`), it models the strict assignment of a
C local variable. -/
def strictNat (n : Nat) (k : Nat → α) : α :=
  match n with
  | 0 => k 0
  | m+1 => k (m+1)

theorem strictNat_eq (n : Nat) (k : Nat → α) : strictNat n k = k n := by
  cases n <;> rfl

/-- Byte `i` of a packed little-endian byte array. -/
def byteAt (a i : Nat) : Nat := (a >>> (8*i)) &&& 255

/-- One iteration of the table-building loop in `init_galois_field`
(both C files, identical code): `temp <<= 1; if (temp & 0x100) temp ^= 0x11D`. -/
def gfStep (t : Nat) : Nat :=
  let t2 := t <<< 1
  if t2 &&& 0x100 != 0 then t2 ^^^ 0x11D else t2

/-- The loop `for (i = 0; i < 255; i++) : gf_exp[i] = temp; gf_log[temp] = i;
temp = step temp` of `init_galois_field`, building the packed `gf_exp[0..255)`
and `gf_log` tables simultaneously.  `temp` is never 0, so byte 0 of the log
table is left 0 by the loop (it is set to 255 afterwards, see `gfLogPack`). -/
def gfBuildGo : Nat → Nat → Nat → Nat → Nat → Nat × Nat
  | 0, _, _, e, l => (e, l)
  | fuel+1, t, i, e, l =>
    strictNat (gfStep t) fun t2 =>
    strictNat (e ||| (t <<< (8*i))) fun e2 =>
    strictNat (l ||| (i <<< (8*t))) fun l2 =>
    gfBuildGo fuel t2 (i+1) e2 l2

/-- Bytes 0..254 of `gf_exp`. -/
def gfExpCore : Nat := (gfBuildGo 255 1 0 0 0).1

/-- The full 512-byte `gf_exp` table.  The second C loop sets
`gf_exp[i] = gf_exp[i-255]` for `i` in 255..511; positions 510 and 511 read
positions 255 and 256, which at that point already hold `gf_exp[0]` and
`gf_exp[1]`, hence the extra two-byte copy of the core's low 16 bits. -/
def gfExpPack : Nat :=
  gfExpCore ||| (gfExpCore <<< (8*255)) ||| ((gfExpCore &&& 0xFFFF) <<< (8*510))

/-- The 256-byte `gf_log` table; `gf_log[0] = 255` is the sentinel written
after the build loop (byte 0 is 0 before that, so a plain `|||` realises the
assignment). -/
def gfLogPack : Nat := (gfBuildGo 255 1 0 0 0).2 ||| 255

/-- `gf_mult` of `rs_decoding_binary.c` line 35 (identical in the encoder):
0 if either operand is 0, else `gf_exp[gf_log[a] + gf_log[b]]`. -/
def gfMult (a b : Nat) : Nat :=
  if a == 0 || b == 0 then 0
  else byteAt gfExpPack (byteAt gfLogPack a + byteAt gfLogPack b)

/-- `gf_div` of `rs_decoding_binary.c` line 39: fail-soft 0 when `b = 0`,
0 when `a = 0`, else `gf_exp[gf_log[a] + 255 - gf_log[b]]`. -/
def gfDiv (a b : Nat) : Nat :=
  if b == 0 then 0
  else if a == 0 then 0
  else byteAt gfExpPack (byteAt gfLogPack a + 255 - byteAt gfLogPack b)

/-- C truncated-division remainder, the semantics of `%` on `int`. -/
def cMod (a b : Int) : Int := Int.tmod a b

/-- An indexed read of `gf_exp[idx]` where `idx` is a C `int`.  Indices in
the array's range 0..511 read the table; anything else is an out-of-bounds
read, undefined behaviour in C, modelled here by the arbitrary value 0. -/
def gfExpAt (idx : Int) : Nat :=
  if 0 ≤ idx ∧ idx < 512 then byteAt gfExpPack idx.toNat else 0

/-- `gf_pow` of `rs_decoding_binary.c` line 44:
`(base == 0) ? ((exp == 0) ? 1 : 0) : gf_exp[(gf_log[base] * exp) % 255]`.
The exponent is a C `int` and may be negative, in which case the index into
`gf_exp` is negative (see `gfExpAt`). -/
def gfPow (base : Nat) (e : Int) : Nat :=
  if base == 0 then (if e == 0 then 1 else 0)
  else gfExpAt (cMod ((byteAt gfLogPack base : Int) * e) 255)

/-- Multiplies each byte `j` (for `j < fuel`) of the packed polynomial `p`
by the constant `ai`, collecting the products at their byte positions.
Used for the generator-polynomial update, the encoder feedback row and the
`prev_lambda` scaling, which are exactly such per-coefficient products. -/
def polyScaleGo : Nat → Nat → Nat → Nat → Nat → Nat
  | 0, _, _, _, acc => acc
  | fuel+1, p, ai, j, acc =>
    strictNat (acc ||| (gfMult (byteAt p j) ai <<< (8*j))) fun a2 =>
    polyScaleGo fuel p ai (j+1) a2

/-- One iteration of `generate_polynomial` (`rs_encoding_binary.c` line 103):
multiply the current polynomial by `(x - alpha^i)`, i.e.
`g[j] = g[j-1] ^ gf_mult(g[j], alpha_i)` for `j` descending, then
`g[0] = gf_mult(g[0], alpha_i)`.  The C loop touches only `j ≤ i+1`; all
higher coefficients are 0 on both sides of the update, so the uniform
33-byte form below coincides with it.  The 33-byte mask discards the shift
of byte 32 into byte 33, which the C loop never writes. -/
def genStep (g ai : Nat) : Nat :=
  ((g <<< 8) &&& ((1 <<< 264) - 1)) ^^^ polyScaleGo 33 g ai 0 0

/-- The `generate_polynomial` loop after `i` iterations, starting from the
polynomial 1. -/
def genIter : Nat → Nat
  | 0 => 1
  | i+1 => strictNat (genIter i) fun g => genStep g (gfPow 2 (i : Int))

/-- The degree-32 CCSDS generator polynomial `generator[0..33)`. -/
def rsGeneratorPack : Nat := genIter 32

/-- One iteration of the encoder's division loop (`rs_encode_block`,
`rs_encoding_binary.c` lines 160-168): `feedback = data[i] ^ remainder[31]`,
shift the 32-byte remainder register up one byte and overlay
`gf_mult(generator[j], feedback)` at byte `j`. -/
def encStep (rem d : Nat) : Nat :=
  strictNat (d ^^^ byteAt rem 31) fun fb =>
  ((rem <<< 8) &&& ((1 <<< 256) - 1)) ^^^ polyScaleGo 32 rsGeneratorPack fb 0 0

/-- The encoder loop over the `fuel` data bytes starting at byte index `i`. -/
def encGo (data : Nat) : Nat → Nat → Nat → Nat
  | 0, _, rem => rem
  | fuel+1, i, rem =>
    strictNat (encStep rem (byteAt data i)) fun r2 =>
    encGo data fuel (i+1) r2

/-- `rs_encode_block`: the systematic codeword is the 223 data bytes followed
by the 32-byte remainder register. -/
def rsEncodeBlock (data : Nat) : Nat :=
  (data &&& ((1 <<< 1784) - 1)) ||| (encGo data 223 0 0 <<< (8*223))

/-- Inner loop of `compute_syndromes` (`rs_decoding_binary.c` line 52):
`syndromes[i] ^= gf_mult(received[j], gf_pow(alpha_i, j))` for `j < 255`. -/
def synGo (received ai : Nat) : Nat → Nat → Nat → Nat
  | 0, _, s => s
  | fuel+1, j, s =>
    strictNat (s ^^^ gfMult (byteAt received j) (gfPow ai (j : Int))) fun s2 =>
    synGo received ai fuel (j+1) s2

/-- Syndrome `s_i` of a received word, with `alpha_i = gf_pow(2, i)`. -/
def syndromeAt (received i : Nat) : Nat :=
  synGo received (gfPow 2 (i : Int)) 255 0 0

/-- Outer loop of `compute_syndromes`, packing the 32 syndromes. -/
def syndromesGo (received : Nat) : Nat → Nat → Nat → Nat
  | 0, _, acc => acc
  | fuel+1, i, acc =>
    strictNat (acc ||| (syndromeAt received i <<< (8*i))) fun a2 =>
    syndromesGo received fuel (i+1) a2

/-- `compute_syndromes` : the packed 32-byte syndrome vector.  The packed
value is 0 exactly when all 32 syndrome bytes are 0, which is the decoder's
`has_errors` test. -/
def computeSyndromes (received : Nat) : Nat := syndromesGo received 32 0 0

/-- State of the `berlekamp_massey` loop: the 33-byte `lambda` and
`prev_lambda` arrays (packed) with the `deg_lambda` and `deg_prev`
bookkeeping integers. -/
structure BMState where
  lam : Nat
  prevLam : Nat
  degL : Nat
  degP : Nat
deriving DecidableEq

/-- Discrepancy loop of `berlekamp_massey` (lines 67-70):
`disc = syndromes[k]` then `disc ^= gf_mult(lambda[i], syndromes[k-i])`
for `i = 1 .. deg_lambda` (`fuel` counts the remaining iterations). -/
def discGo (lam syn k : Nat) : Nat → Nat → Nat → Nat
  | 0, _, d => d
  | fuel+1, i, d =>
    strictNat (d ^^^ gfMult (byteAt lam i) (byteAt syn (k - i))) fun d2 =>
    discGo lam syn k fuel (i+1) d2

/-- Lambda update loop of `berlekamp_massey` (lines 75-82): for
`i = 0 .. deg_prev`, when `prev_lambda[i] != 0` and `pos = i + (k - deg_prev)`
is at most 32, `lambda[pos] ^= gf_mult(disc, prev_lambda[i])`.  In the C code
`k - deg_prev` is an `int`; it is never negative (the code only ever assigns
`deg_prev = 0`), so natural subtraction is faithful. -/
def lamUpdGo (prev disc k degP : Nat) : Nat → Nat → Nat → Nat
  | 0, _, acc => acc
  | fuel+1, i, acc =>
    strictNat
      (if byteAt prev i != 0 then
         (if i + (k - degP) ≤ 32 then
            acc ^^^ (gfMult disc (byteAt prev i) <<< (8*(i + (k - degP))))
          else acc)
       else acc) fun a2 =>
    lamUpdGo prev disc k degP fuel (i+1) a2

/-- One iteration `k` of the `berlekamp_massey` main loop (lines 66-97).
When the discrepancy is non-zero the lambda array is updated from the scaled
previous iterate; when `new_deg = deg_prev + (k - deg_prev)` exceeds
`deg_lambda`, the degree is promoted, `prev_lambda` becomes the pre-update
lambda scaled by `gf_exp[255 - gf_log[disc]]`, and `deg_prev = k - deg_lambda`. -/
def bmUpdate (syn : Nat) (st : BMState) (k : Nat) : BMState :=
  strictNat (discGo st.lam syn k st.degL 1 (byteAt syn k)) fun disc =>
  if disc == 0 then st
  else
    strictNat (lamUpdGo st.prevLam disc k st.degP (st.degP + 1) 0 st.lam) fun lam2 =>
    strictNat (st.degP + (k - st.degP)) fun newDeg =>
    if newDeg > st.degL then
      strictNat (byteAt gfExpPack (255 - byteAt gfLogPack disc)) fun invDisc =>
      ⟨lam2, polyScaleGo 33 st.lam invDisc 0 0, newDeg, k - newDeg⟩
    else ⟨lam2, st.prevLam, st.degL, st.degP⟩

/-- Forces the four components of a Berlekamp-Massey state. -/
def forceBM (st : BMState) (k : BMState → α) : α :=
  strictNat st.lam fun a =>
  strictNat st.prevLam fun b =>
  strictNat st.degL fun c =>
  strictNat st.degP fun d =>
  k ⟨a, b, c, d⟩

/-- The `berlekamp_massey` loop over `k = 0 .. 31`. -/
def bmGo (syn : Nat) : Nat → Nat → BMState → BMState
  | 0, _, st => st
  | fuel+1, k, st =>
    forceBM (bmUpdate syn st k) fun st2 =>
    bmGo syn fuel (k+1) st2

/-- `berlekamp_massey` (without the trailing error-evaluator computation):
`lambda = prev_lambda = [1,0,...]`, `deg_lambda = deg_prev = 0`, then 32
iterations of the main loop; the returned value of the C function is the
final `deg_lambda`. -/
def berlekampMassey (syn : Nat) : BMState := bmGo syn 32 0 ⟨1, 1, 0, 0⟩

/-- Inner loop of the error-evaluator computation (lines 101-105):
`omega[i] ^= gf_mult(syndromes[i-j], lambda[j])` for `j = 0 .. min deg_lambda i`. -/
def omegaGo (syn lam i : Nat) : Nat → Nat → Nat → Nat
  | 0, _, o => o
  | fuel+1, j, o =>
    strictNat (o ^^^ gfMult (byteAt syn (i - j)) (byteAt lam j)) fun o2 =>
    omegaGo syn lam i fuel (j+1) o2

/-- Byte `i` of the error evaluator `omega`. -/
def omegaAt (syn lam degL i : Nat) : Nat :=
  omegaGo syn lam i (min degL i + 1) 0 0

/-- Outer loop packing the 32 bytes of `omega`. -/
def omegaPackGo (syn lam degL : Nat) : Nat → Nat → Nat → Nat
  | 0, _, acc => acc
  | fuel+1, i, acc =>
    strictNat (acc ||| (omegaAt syn lam degL i <<< (8*i))) fun a2 =>
    omegaPackGo syn lam degL fuel (i+1) a2

/-- The packed 32-byte error evaluator computed at the end of
`berlekamp_massey`. -/
def computeOmega (syn lam degL : Nat) : Nat := omegaPackGo syn lam degL 32 0 0

/-- The Chien-search exponent of `find_and_correct_errors` line 119:
`(255 - i * j) % 255` evaluated with C `int` semantics.  For `i*j > 255`
not divisible by 255 this value is negative. -/
def chienExpo (i j : Nat) : Int := cMod (255 - (i : Int) * (j : Int)) 255

/-- Inner evaluation loop of the Chien search (lines 117-121):
`sum ^= gf_mult(lambda[j], gf_pow(2, (255 - i*j) % 255))` over the non-zero
`lambda[j]`, `j = 0 .. deg_lambda`. -/
def chienSumGo (lam i : Nat) : Nat → Nat → Nat → Nat
  | 0, _, s => s
  | fuel+1, j, s =>
    strictNat
      (if byteAt lam j != 0 then s ^^^ gfMult (byteAt lam j) (gfPow 2 (chienExpo i j))
       else s) fun s2 =>
    chienSumGo lam i fuel (j+1) s2

/-- The Chien-search sum `Lambda(alpha^(-i))` as the C code computes it. -/
def chienSum (lam degL i : Nat) : Nat := chienSumGo lam i (degL+1) 0 0

/-- Number of positions `i < 255` at which the Chien sum vanishes, i.e. the
number of error positions `find_and_correct_errors` finds when it is not
stopped early. -/
def chienZeroCount (lam degL : Nat) : Nat :=
  (List.range 255).countP (fun i => chienSum lam degL i == 0)

/-- Error-evaluator value loop (lines 134-139):
`omega_val ^= gf_mult(omega[j], gf_pow(alpha_inv_i, j))` over non-zero
`omega[j]`, `j < 32`. -/
def errValGo (om aInv : Nat) : Nat → Nat → Nat → Nat
  | 0, _, v => v
  | fuel+1, j, v =>
    strictNat
      (if byteAt om j != 0 then v ^^^ gfMult (byteAt om j) (gfPow aInv (j : Int))
       else v) fun v2 =>
    errValGo om aInv fuel (j+1) v2

/-- Formal-derivative loop (lines 142-147): odd `j = 1, 3, ... ≤ deg_lambda`,
`lambda_prime ^= gf_mult(lambda[j], gf_pow(alpha_inv_i, j - 1))`; `fuel` is
the number of odd indices. -/
def lamPrimeGo (lam aInv : Nat) : Nat → Nat → Nat → Nat
  | 0, _, v => v
  | fuel+1, j, v =>
    strictNat
      (if byteAt lam j != 0 then v ^^^ gfMult (byteAt lam j) (gfPow aInv ((j - 1 : Nat) : Int))
       else v) fun v2 =>
    lamPrimeGo lam aInv fuel (j+2) v2

/-- The `find_and_correct_errors` loop over positions `i` (`fuel` positions
remaining).  At a root of lambda the error count is incremented, `-1` is
returned as soon as it exceeds 16, and otherwise the Forney correction
`gf_div(omega_val, lambda_prime)` is XORed into byte `i` of the word when
the derivative is non-zero.  After the loop the function returns the error
count if it equals `deg_lambda` and `-1` otherwise. -/
def facGo (lam om degL : Nat) : Nat → Nat → Nat → Nat → Int × Nat
  | 0, _, ec, cor => (if ec = degL then ((ec : Nat) : Int) else -1, cor)
  | fuel+1, i, ec, cor =>
    strictNat (chienSum lam degL i) fun sum =>
    if sum = 0 then
      (if ec + 1 > 16 then (-1, cor)
       else
         strictNat (gfPow 2 (cMod ((255 : Int) - (i : Int)) 255)) fun aInv =>
         strictNat (errValGo om aInv 32 0 0) fun oval =>
         strictNat (lamPrimeGo lam aInv ((degL + 1) / 2) 1 0) fun lp =>
         strictNat (if lp != 0 then cor ^^^ (gfDiv oval lp <<< (8*i)) else cor) fun c2 =>
         facGo lam om degL fuel (i+1) (ec+1) c2)
    else facGo lam om degL fuel (i+1) ec cor

/-- `find_and_correct_errors` over the 255 positions. -/
def findAndCorrectErrors (lam om degL cor : Nat) : Int × Nat :=
  facGo lam om degL 255 0 0 cor

/-- The tail of `rs_decode_block` after Berlekamp-Massey: degree 0 reports a
clean word, otherwise the Chien/Forney pass runs on the copied word. -/
def rsDecodeAfterBM (bm : BMState) (syn received : Nat) : Int × Nat :=
  if bm.degL = 0 then (0, received)
  else findAndCorrectErrors bm.lam (computeOmega syn bm.lam bm.degL) bm.degL received

/-- `rs_decode_block` given the syndromes: all-zero syndromes (packed value
0) report 0 with the word unchanged; otherwise Berlekamp-Massey runs. -/
def rsDecodeCore (syn received : Nat) : Int × Nat :=
  if syn = 0 then (0, received)
  else rsDecodeAfterBM (berlekampMassey syn) syn received

/-- `rs_decode_block` (`rs_decoding_binary.c` lines 160-184): returns the C
function's `int` result together with the (possibly corrected) copy of the
received word. -/
def rsDecodeBlock (received : Nat) : Int × Nat :=
  rsDecodeCore (computeSyndromes received) received

/-- The `write_size` computation of `decode_file` (lines 229-236): starting
from `K = 223`, trailing zero bytes of the output block are trimmed. -/
def trimLenGo (block : Nat) : Nat → Nat
  | 0 => 0
  | ws+1 => if byteAt block ws = 0 then trimLenGo block ws else ws+1

/-- The first `n` bytes of a packed block, as the byte list that
`decode_file` writes to the output stream. -/
def unpackBytesGo (block : Nat) : Nat → Nat → List Nat
  | 0, _ => []
  | n+1, i => byteAt block i :: unpackBytesGo block n (i+1)

/-- Packs a byte list little-endian (the effect of `fread` filling a block
buffer; missing bytes stay 0, which is the zero-padding of a short read). -/
def packBytesGo : List Nat → Nat → Nat → Nat
  | [], _, acc => acc
  | b :: rest, sh, acc =>
    strictNat (acc ||| ((b &&& 255) <<< sh)) fun a2 =>
    strictNat (sh + 8) fun s2 =>
    packBytesGo rest s2 a2

/-- Packs a byte list into a block value. -/
def packBytes (bs : List Nat) : Nat := packBytesGo bs 0 0

/-- Splits the input byte stream into successive 255-byte reads, the last
one zero-padded, exactly as the `fread` loop of `decode_file` sees them.
`fuel` bounds the recursion; `chunkBlocksC` supplies the list length, which
is always enough since every step consumes at least one byte. -/
def chunkBlocksGo : Nat → List Nat → List Nat
  | 0, _ => []
  | _, [] => []
  | fuel+1, b :: rest => packBytes ((b :: rest).take 255) :: chunkBlocksGo fuel ((b :: rest).drop 255)

/-- The block sequence read by `decode_file`. -/
def chunkBlocksC (bytes : List Nat) : List Nat := chunkBlocksGo bytes.length bytes

/-- The per-block loop of `decode_file` (lines 212-242).  `tb` is
`total_blocks = file_size / N` and `bc` the number of blocks already
processed.  Each block is decoded; on result `-1` the original received
block is used and `failed_blocks` is incremented, on a positive result
`corrected_blocks` is incremented.  The first 223 bytes of the output block
are written, with trailing zeros trimmed on block number `tb`.  The loop
never aborts: it returns one written chunk per input block, together with
the (corrected, failed) counters. -/
def decodeFileGo (tb : Nat) : List Nat → Nat → List (List Nat) × Nat × Nat
  | [], _ => ([], 0, 0)
  | b :: rest, bc =>
    ((unpackBytesGo (if (rsDecodeBlock b).1 = -1 then b else (rsDecodeBlock b).2)
        (if bc + 1 = tb then
           trimLenGo (if (rsDecodeBlock b).1 = -1 then b else (rsDecodeBlock b).2) 223
         else 223) 0) :: (decodeFileGo tb rest (bc+1)).1,
     (if (rsDecodeBlock b).1 > 0 then (decodeFileGo tb rest (bc+1)).2.1 + 1
      else (decodeFileGo tb rest (bc+1)).2.1),
     (if (rsDecodeBlock b).1 = -1 then (decodeFileGo tb rest (bc+1)).2.2 + 1
      else (decodeFileGo tb rest (bc+1)).2.2))

/-- `decode_file` on a byte stream: chunk into 255-byte blocks and run the
decode loop with `total_blocks = file_size / 255`. -/
def decodeFile (bytes : List Nat) : List (List Nat) × Nat × Nat :=
  decodeFileGo (bytes.length / 255) (chunkBlocksC bytes) 0

/-! AX.25 side, from `ax25_packet.c`.  Frames are byte lists. -/

/-- The `frame_type_t` enumeration. -/
inductive FrameType where
  | beacon
  | dataHeader
  | dataFirst
  | dataMid
  | dataEnd
  | message
deriving DecidableEq, Inhabited

/-- The numeric value of each enumerator (`BEACON_FRAME = 0` .. `FRAME_MESSAGE = 5`). -/
def ftCode : FrameType → Nat
  | .beacon => 0
  | .dataHeader => 1
  | .dataFirst => 2
  | .dataMid => 3
  | .dataEnd => 4
  | .message => 5

/-- The `ax25_config_t` record: callsigns as byte lists plus the two SSIDs. -/
structure Ax25Config where
  sourceCall : List Nat
  destCall : List Nat
  source : Nat
  dest : Nat

/-- `encode_address`: six callsign bytes each left-shifted one bit
(space-filled, `' ' << 1 = 0x40`), then the SSID byte
`(ssid << 1) | (last ? 1 : 0)`; all stores truncate to `uint8_t`. -/
def encodeAddress (call : List Nat) (ssid : Nat) (last : Bool) : List Nat :=
  (List.range 6).map (fun i =>
    if i < call.length then (call.getD i 0 <<< 1) &&& 255 else (0x20 <<< 1) &&& 255)
  ++ [((ssid <<< 1) ||| (if last then 1 else 0)) &&& 255]

/-- The 8 shift rounds of `calculate_crc` on the 16-bit register:
`crc = (crc & 0x8000) ? (crc << 1) ^ 0x1021 : crc << 1`, truncated to 16
bits by the `uint16_t` assignment. -/
def crcBitsGo : Nat → Nat → Nat
  | 0, c => c
  | fuel+1, c =>
    strictNat (if c &&& 0x8000 != 0 then ((c <<< 1) ^^^ 0x1021) &&& 0xFFFF
               else (c <<< 1) &&& 0xFFFF) fun c2 =>
    crcBitsGo fuel c2

/-- The byte loop of `calculate_crc`: `crc ^= data[i] << 8` then 8 shift
rounds per byte. -/
def crcGo : List Nat → Nat → Nat
  | [], c => c
  | b :: rest, c =>
    strictNat (crcBitsGo 8 (c ^^^ ((b <<< 8) &&& 0xFFFF))) fun c2 =>
    crcGo rest c2

/-- `calculate_crc` (`ax25_packet.c` lines 42-56): register initialised to
0xFFFF, processed per byte MSB-first with polynomial 0x1021, and the final
register XORed with 0xFFFF. -/
def calculateCrc (data : List Nat) : Nat := crcGo data 0xFFFF ^^^ 0xFFFF

/-- `frame_header` (lines 58-65): type byte, then sequence and total as
16-bit big-endian values. -/
def frameHeader (t seq total : Nat) : List Nat :=
  [t &&& 255, (seq >>> 8) &&& 255, seq &&& 255, (total >>> 8) &&& 255, total &&& 255]

/-- `frame_gen` (lines 67-98), written as the sequence of buffer writes the
C function performs; `position` always equals the number of bytes written,
so the returned count is the buffer length.  The FCS is
`calculate_crc(&frame_buffer[1], position - 1)`, i.e. the CRC of every byte
written after the opening flag and before the FCS, emitted low byte first. -/
def frameGen (cfg : Ax25Config) (ft : FrameType) (seq total : Nat) (payload : List Nat) :
    List Nat × Nat :=
  let b1 := [0x7E]
  let b2 := b1 ++ encodeAddress cfg.destCall cfg.dest false
  let b3 := b2 ++ encodeAddress cfg.sourceCall cfg.source true
  let b4 := b3 ++ [0x03, 0xF0]
  let b5 := if ft ≠ FrameType.message then b4 ++ frameHeader (ftCode ft) seq total else b4
  let b6 := if payload.length > 0 then b5 ++ payload else b5
  let fcs := calculateCrc (b6.drop 1)
  let b8 := b6 ++ [fcs &&& 255, (fcs >>> 8) &&& 255] ++ [0x7E]
  (b8, b8.length)

/-- The bytes of an AX.25 frame between the opening flag and the FCS, in
the order the specification lists them: dest address (last = 0), source
address (last = 1), control 0x03, PID 0xF0, the 5-byte fragment header when
the type is not MESSAGE, then the payload.  This is the range the FCS is
computed over. -/
def frameBodySpec (cfg : Ax25Config) (ft : FrameType) (seq total : Nat)
    (payload : List Nat) : List Nat :=
  encodeAddress cfg.destCall cfg.dest false
  ++ encodeAddress cfg.sourceCall cfg.source true
  ++ [0x03, 0xF0]
  ++ (if ft ≠ FrameType.message then frameHeader (ftCode ft) seq total else [])
  ++ payload

/-- `create_beacon_frame` (line 114): a BEACON frame with sequence 0 and
total 1. -/
def createBeaconFrame (cfg : Ax25Config) (msg : List Nat) : List Nat × Nat :=
  frameGen cfg FrameType.beacon 0 1 msg

/-- The chunk passed to `frame_gen` for packet number `p` (`packetization`,
lines 128-130): `chunk_size` bytes starting at `p * 256`, where
`chunk_size` is 256 unless the remaining data is shorter. -/
def chunkFor (data : List Nat) (p : Nat) : List Nat :=
  (data.drop (p * 256)).take
    (if p * 256 + 256 > data.length then data.length - p * 256 else 256)

/-- The frame-type policy of `packetization` (lines 133-142). -/
def frameTypeFor (p total : Nat) : FrameType :=
  if total = 1 then FrameType.dataHeader
  else if p = 0 then FrameType.dataFirst
  else if p = total - 1 then FrameType.dataEnd
  else FrameType.dataMid

/-- The per-frame arguments `(frame_type, sequence, total, chunk)` that the
`packetization` loop (lines 122-152) passes to `frame_gen`, in packet order;
`total_packets = (data_length + 255) / 256`. -/
def packetizationFrames (data : List Nat) : List (FrameType × Nat × Nat × List Nat) :=
  (List.range ((data.length + 255) / 256)).map
    (fun p => (frameTypeFor p ((data.length + 255) / 256), p,
               (data.length + 255) / 256, chunkFor data p))

/-- `packetization`: the frames actually generated, one per chunk. -/
def packetization (cfg : Ax25Config) (data : List Nat) : List (List Nat × Nat) :=
  (packetizationFrames data).map (fun f => frameGen cfg f.1 f.2.1 f.2.2.1 f.2.2.2)

/-! Concrete inputs used by the witnesses and counterexamples. -/

/-- The configuration of scenario S1 in the specification: source callsign
"N0CALL" with SSID 0, dest callsign "CQ" with SSID 0 (`main`, `ax25_packet.c`). -/
def s1Config : Ax25Config :=
  ⟨[0x4E, 0x30, 0x43, 0x41, 0x4C, 0x4C], [0x43, 0x51], 0, 0⟩

/-- A 255-byte received word whose polynomial is the product of
`(x - alpha^k)` for `k = 1 .. 31`: its syndrome `s_0` is non-zero while
`s_1 .. s_31` all vanish, so Berlekamp-Massey leaves `deg_lambda = 0`. -/
def degZeroWord : Nat :=
  659399793171628267727427535370183952249505899622680692298196080592559535192

/-! Theorems for the claims. -/

/-- C7: after Galois-field initialization, `gf_exp[gf_log[x]] = x` for
`x` in 1..255, `gf_log[gf_exp[i]] = i` and `gf_exp[i + 255] = gf_exp[i]`
for `i < 255`, and `gf_log[0] = 255`. -/
theorem c7_gf_table_invariants :
    (∀ x, x ≤ 255 → 1 ≤ x → byteAt gfExpPack (byteAt gfLogPack x) = x)
    ∧ (∀ i, i < 255 → byteAt gfLogPack (byteAt gfExpPack i) = i)
    ∧ (∀ i, i < 255 → byteAt gfExpPack (i + 255) = byteAt gfExpPack i)
    ∧ byteAt gfLogPack 0 = 255 := by
  refine ⟨by decide, by decide, by decide, by decide⟩

/-- Witness for C7 at the concrete points x = 7 and i = 10. -/
theorem c7_gf_table_invariants_witness :
    byteAt gfExpPack (byteAt gfLogPack 7) = 7
    ∧ byteAt gfLogPack (byteAt gfExpPack 10) = 10
    ∧ byteAt gfExpPack (10 + 255) = byteAt gfExpPack 10 :=
  ⟨c7_gf_table_invariants.1 7 (by decide) (by decide),
   c7_gf_table_invariants.2.1 10 (by decide),
   c7_gf_table_invariants.2.2.1 10 (by decide)⟩

/-- C5 counterexample: the code's CRC of the ASCII bytes of "123456789" is
not 0x29B1; the final XOR with 0xFFFF in `calculate_crc` moves the value
away from the CRC-CCITT-FALSE test vector. -/
theorem c5_counterexample :
    calculateCrc [0x31, 0x32, 0x33, 0x34, 0x35, 0x36, 0x37, 0x38, 0x39] ≠ 0x29B1 := by
  decide

/-- C5 amended: the code's CRC of "123456789" is 0xD64E, which is
0x29B1 XOR 0xFFFF. -/
theorem c5_crc_of_test_vector :
    calculateCrc [0x31, 0x32, 0x33, 0x34, 0x35, 0x36, 0x37, 0x38, 0x39] = 0xD64E := by
  decide

/-- C6 counterexample: the beacon frame generated for payload "HELLO" under
the S1 configuration does not begin with the byte sequence the claim lists;
already its second byte is 0x86 ('C' shifted left once), not 0xA6. -/
theorem c6_counterexample :
    (createBeaconFrame s1Config [0x48, 0x45, 0x4C, 0x4C, 0x4F]).1.take 27 ≠
      [0x7E, 0xA6, 0x84, 0x40, 0x40, 0x40, 0x40, 0x60, 0x9C, 0x60, 0x86, 0x82, 0x98, 0x98,
       0x61, 0x03, 0xF0, 0x00, 0x00, 0x00, 0x00, 0x01, 0x48, 0x45, 0x4C, 0x4C, 0x4F] := by
  decide

/-- C6 amended: the exact frame the code generates for scenario S1, namely
dest "CQ" encoded as 86 A2 40 40 40 40 with SSID byte 00, source "N0CALL"
encoded as 9C 60 86 82 98 98 with SSID byte 01, control 03, PID F0, the
fragment header 00 00 00 00 01, the payload "HELLO", the FCS 56 E6
(little-endian) and the closing flag; the returned count is 30. -/
theorem c6_beacon_frame_bytes :
    createBeaconFrame s1Config [0x48, 0x45, 0x4C, 0x4C, 0x4F] =
      ([0x7E, 0x86, 0xA2, 0x40, 0x40, 0x40, 0x40, 0x00, 0x9C, 0x60, 0x86, 0x82, 0x98, 0x98,
        0x01, 0x03, 0xF0, 0x00, 0x00, 0x00, 0x00, 0x01, 0x48, 0x45, 0x4C, 0x4C, 0x4F,
        0x56, 0xE6, 0x7E], 30) := by
  decide

/-- C2: the all-zero data block encodes to the all-zero codeword, and the
decoder applied to that codeword corrupted by the single symbol error
(position 0, value 1) returns -1 (uncorrectable) with the word unchanged,
instead of correcting the error with status 1. -/
theorem c2_single_error_not_corrected :
    rsEncodeBlock 0 = 0 ∧ rsDecodeBlock 1 = (-1, 1) := by
  refine ⟨by decide, by decide⟩

/-- C9: a received word with all syndromes zero is returned as clean
(status 0, word unchanged), and a received word with non-zero syndromes for
which Berlekamp-Massey yields degree 0 is also returned as clean. -/
theorem c9_clean_paths (r : Nat) (_hr : r < 1 <<< 2040) :
    (computeSyndromes r = 0 → rsDecodeBlock r = (0, r))
    ∧ (computeSyndromes r ≠ 0 → (berlekampMassey (computeSyndromes r)).degL = 0 →
        rsDecodeBlock r = (0, r)) := by
  constructor
  · intro h
    simp [rsDecodeBlock, rsDecodeCore, h]
  · intro h1 h2
    simp [rsDecodeBlock, rsDecodeCore, rsDecodeAfterBM, h1, h2]

/-- Witness for C9: the all-zero word takes the all-zero-syndromes path, and
`degZeroWord` has a non-zero syndrome vector but Berlekamp-Massey degree 0;
both decode to status 0 with the word unchanged. -/
theorem c9_clean_paths_witness :
    (computeSyndromes 0 = 0 ∧ rsDecodeBlock 0 = (0, 0))
    ∧ (computeSyndromes degZeroWord ≠ 0
       ∧ (berlekampMassey (computeSyndromes degZeroWord)).degL = 0
       ∧ rsDecodeBlock degZeroWord = (0, degZeroWord)) :=
  ⟨⟨by decide, (c9_clean_paths 0 (by decide)).1 (by decide)⟩,
   ⟨by decide, by decide,
    (c9_clean_paths degZeroWord (by decide)).2 (by decide) (by decide)⟩⟩

/-- C10 counterexample: for the received word with bytes 1, 1 at positions
0, 1 the decoder runs the Chien search with `deg_lambda = 31 ≥ 2`, and at
position `i = 128`, term `j = 2` the exponent `(255 - i*j) % 255` is
negative (C truncated division), so the index `(gf_log[2] * exp) % 255`
passed to `gf_exp` is -1, outside the range 0..511. -/
theorem c10_counterexample :
    2 ≤ (berlekampMassey (computeSyndromes 257)).degL
    ∧ chienExpo 128 2 < 0
    ∧ cMod ((byteAt gfLogPack 2 : Int) * chienExpo 128 2) 255 = -1 := by
  refine ⟨by decide, by decide, by decide⟩

theorem negOfNat_tmod (m n : Nat) :
    Int.tmod (-(m : Int)) (n : Int) = -((m % n : Nat) : Int) := by
  cases m with
  | zero => simp
  | succ k => rfl

/-- C10 amended: the Chien-search exponent `(255 - i*j) % 255` (C truncated
division) is non-negative exactly when `i*j ≤ 255` or `i*j` is divisible by
255; in particular it is non-negative for every `i < 255` when `j ≤ 1`, but
for `j ≥ 2` positions such as `i = 128` make it negative and the
corresponding `gf_exp` lookup is out of bounds. -/
theorem c10_chien_exponent_nonneg_iff (i j : Nat) :
    0 ≤ chienExpo i j ↔ (i * j ≤ 255 ∨ i * j % 255 = 0) := by
  have key : ∀ m : Nat, (0 ≤ cMod (255 - (m : Int)) 255 ↔ (m ≤ 255 ∨ m % 255 = 0)) := by
    intro m
    unfold cMod
    rcases Nat.le_total m 255 with h | h
    · rw [show ((255 : Int) - (m : Int)) = ((255 - m : Nat) : Int) by omega]
      rw [show ((255 : Int)) = ((255 : Nat) : Int) from rfl, ← Int.ofNat_tmod]
      omega
    · rw [show ((255 : Int) - (m : Int)) = -((m - 255 : Nat) : Int) by omega]
      rw [show ((255 : Int)) = ((255 : Nat) : Int) from rfl, negOfNat_tmod]
      omega
  have h2 : ((i : Int) * (j : Int)) = ((i * j : Nat) : Int) := by push_cast; ring
  unfold chienExpo
  rw [h2]
  exact key (i * j)

/-- The status returned by the `find_and_correct_errors` loop is either -1
or the `deg_lambda` it was given: the loop returns the error count only when
it equals `deg_lambda`.  This holds whatever values the Galois-field reads
produce, so it is unaffected by the out-of-bounds `gf_exp` reads the Chien
search can perform. -/
theorem facGo_fst (lam om degL : Nat) :
    ∀ fuel i ec cor, (facGo lam om degL fuel i ec cor).1 = -1
      ∨ (facGo lam om degL fuel i ec cor).1 = (degL : Int) := by
  intro fuel
  induction fuel with
  | zero =>
    intro i ec cor
    by_cases h : ec = degL
    · right; simp [facGo, h]
    · left; simp [facGo, h]
  | succ f ih =>
    intro i ec cor
    simp only [facGo, strictNat_eq]
    split
    · split
      · left; rfl
      · exact ih _ _ _
    · exact ih _ _ _

/-- C1: decoding the codeword produced by the encoder for the data block
with byte 0 = 1 (and all other bytes 0) does not report status 0: the
encoder fills the parity so that the word is divisible by g(x) with the
data in descending powers, while the decoder's syndromes read the word in
ascending powers, so the syndromes are non-zero, Berlekamp-Massey returns
degree 31, and the decoder reports -1 or a positive count, never 0. -/
theorem c1_decode_of_encode_not_clean :
    (rsDecodeBlock (rsEncodeBlock 1)).1 ≠ 0 := by
  have hs : computeSyndromes (rsEncodeBlock 1) ≠ 0 := by decide
  have hd : (berlekampMassey (computeSyndromes (rsEncodeBlock 1))).degL = 31 := by decide
  unfold rsDecodeBlock rsDecodeCore rsDecodeAfterBM findAndCorrectErrors
  rw [if_neg hs, hd, if_neg (by decide : ¬ (31 : Nat) = 0)]
  rcases facGo_fst (berlekampMassey (computeSyndromes (rsEncodeBlock 1))).lam
      (computeOmega (computeSyndromes (rsEncodeBlock 1))
        (berlekampMassey (computeSyndromes (rsEncodeBlock 1))).lam 31) 31 255 0 0
      (rsEncodeBlock 1) with h | h
  · rw [h]; decide
  · rw [h]; decide

/-- C3: for every configuration, type, sequence, total and payload of at
most 256 bytes, `frame_gen` emits exactly the flag 0x7E, the dest address
encoded with last = 0, the source address encoded with last = 1, control
0x03, PID 0xF0, the 5-byte fragment header exactly when the type is not
MESSAGE, the payload, the 2-byte little-endian FCS computed by
`calculate_crc` over the bytes between the opening flag and the FCS, and
the closing flag 0x7E; the returned value is the total byte count written. -/
theorem c3_frame_layout (cfg : Ax25Config) (ft : FrameType) (seq total : Nat)
    (payload : List Nat) (hlen : payload.length ≤ 256) :
    (frameGen cfg ft seq total payload).1
      = 0x7E :: frameBodySpec cfg ft seq total payload
          ++ [calculateCrc (frameBodySpec cfg ft seq total payload) &&& 255,
              (calculateCrc (frameBodySpec cfg ft seq total payload) >>> 8) &&& 255, 0x7E]
    ∧ (frameGen cfg ft seq total payload).2 = (frameGen cfg ft seq total payload).1.length := by
  constructor
  · rcases Nat.eq_zero_or_pos payload.length with h0 | h0
    · obtain rfl : payload = [] := List.eq_nil_of_length_eq_zero h0
      by_cases hm : ft ≠ FrameType.message <;>
        simp [frameGen, frameBodySpec, hm, List.append_assoc]
    · by_cases hm : ft ≠ FrameType.message <;>
        simp [frameGen, frameBodySpec, hm, h0, List.append_assoc]
  · rfl

/-- Witness for C3 at the scenario-S1 input. -/
theorem c3_frame_layout_witness :
    ([0x48, 0x45, 0x4C, 0x4C, 0x4F] : List Nat).length ≤ 256
    ∧ ((frameGen s1Config FrameType.beacon 0 1 [0x48, 0x45, 0x4C, 0x4C, 0x4F]).1
        = 0x7E :: frameBodySpec s1Config FrameType.beacon 0 1 [0x48, 0x45, 0x4C, 0x4C, 0x4F]
            ++ [calculateCrc (frameBodySpec s1Config FrameType.beacon 0 1
                  [0x48, 0x45, 0x4C, 0x4C, 0x4F]) &&& 255,
                (calculateCrc (frameBodySpec s1Config FrameType.beacon 0 1
                  [0x48, 0x45, 0x4C, 0x4C, 0x4F]) >>> 8) &&& 255, 0x7E]
        ∧ (frameGen s1Config FrameType.beacon 0 1 [0x48, 0x45, 0x4C, 0x4C, 0x4F]).2
            = (frameGen s1Config FrameType.beacon 0 1 [0x48, 0x45, 0x4C, 0x4C, 0x4F]).1.length) :=
  ⟨by decide,
   c3_frame_layout s1Config FrameType.beacon 0 1 [0x48, 0x45, 0x4C, 0x4C, 0x4F] (by decide)⟩

/-- The status of the `find_and_correct_errors` loop in terms of the number
of Chien-sum roots among the remaining positions: `-1` as soon as the total
count exceeds 16, the count itself when it equals `deg_lambda`, and `-1`
otherwise. -/
theorem facGo_count (lam om degL : Nat) :
    ∀ fuel i ec cor, ec ≤ 16 →
      (facGo lam om degL fuel i ec cor).1 =
        (if 16 < ec + (List.range' i fuel).countP (fun t => chienSum lam degL t == 0) then -1
         else if ec + (List.range' i fuel).countP (fun t => chienSum lam degL t == 0) = degL
           then ((ec + (List.range' i fuel).countP (fun t => chienSum lam degL t == 0) : Nat) : Int)
           else -1) := by
  intro fuel
  induction fuel with
  | zero =>
    intro i ec cor hec
    simp only [facGo, List.range'_zero, List.countP_nil, Nat.add_zero]
    rw [if_neg (show ¬ 16 < ec by omega)]
  | succ f ih =>
    intro i ec cor hec
    simp only [facGo, strictNat_eq]
    rw [List.range'_succ]
    by_cases hz : chienSum lam degL i = 0
    · rw [if_pos hz]
      rw [List.countP_cons_of_pos _ _ (by simp [hz])]
      by_cases h16 : ec + 1 > 16
      · rw [if_pos h16,
          if_pos (show 16 < ec + ((List.range' (i+1) f).countP
            (fun t => chienSum lam degL t == 0) + 1) by omega)]
      · rw [if_neg h16, ih (i+1) (ec+1) _ (by omega)]
        have harith : ec + 1 + (List.range' (i+1) f).countP (fun t => chienSum lam degL t == 0)
            = ec + ((List.range' (i+1) f).countP (fun t => chienSum lam degL t == 0) + 1) := by
          omega
        rw [harith]
    · rw [if_neg hz]
      rw [List.countP_cons_of_neg _ _ (by simp [hz])]
      exact ih (i+1) ec cor hec

/-- Per-block behaviour of the `decode_file` loop: one output chunk per
input block (the stream is never aborted), `failed_blocks` counts exactly
the blocks on which `rs_decode_block` returned -1, and every failed block
other than block number `total_blocks` is emitted as its own first 223
bytes, unchanged. -/
theorem decodeFileGo_spec (tb : Nat) :
    ∀ (blocks : List Nat) (bc : Nat),
      ((decodeFileGo tb blocks bc).1.length = blocks.length)
      ∧ ((decodeFileGo tb blocks bc).2.2
          = blocks.countP (fun b => (rsDecodeBlock b).1 == -1))
      ∧ (∀ i, i < blocks.length → (rsDecodeBlock (blocks.getD i 0)).1 = -1 →
          bc + i + 1 ≠ tb →
          (decodeFileGo tb blocks bc).1.getD i [] = unpackBytesGo (blocks.getD i 0) 223 0) := by
  intro blocks
  induction blocks with
  | nil =>
    intro bc
    refine ⟨rfl, by simp [decodeFileGo], ?_⟩
    intro i hi
    simp at hi
  | cons b rest ih =>
    intro bc
    refine ⟨?_, ?_, ?_⟩
    · simp only [decodeFileGo, List.length_cons]
      rw [(ih (bc+1)).1]
    · simp only [decodeFileGo]
      by_cases hb : (rsDecodeBlock b).1 = -1
      · rw [if_pos hb, (ih (bc+1)).2.1, List.countP_cons_of_pos _ _ (by simp [hb])]
      · rw [if_neg hb, (ih (bc+1)).2.1, List.countP_cons_of_neg _ _ (by simp [hb])]
    · intro i hi hf hnt
      cases i with
      | zero =>
        simp only [List.getD_cons_zero] at hf
        simp only [decodeFileGo, List.getD_cons_zero]
        rw [if_pos hf, if_neg (show ¬ bc + 1 = tb by omega)]
      | succ i2 =>
        simp only [List.getD_cons_succ] at hf ⊢
        simp only [decodeFileGo, List.getD_cons_succ]
        exact (ih (bc+1)).2.2 i2 (by simp at hi; omega) hf (by omega)

/-- The byte stream used in the C8 counterexample and witness: a first
block that is the single-error word of C2 (uncorrectable) followed by a
second all-zero block. -/
def c8stream : List Nat := 1 :: List.replicate 509 0

set_option maxRecDepth 8000 in
/-- C8 counterexample: for the first (uncorrectable, non-final) block of
`c8stream`, the chunk that `decode_file` writes is not the received
255-byte word byte for byte: only the first 223 bytes are written and the
32 parity bytes are dropped. -/
theorem c8_counterexample :
    (decodeFile c8stream).1.getD 0 []
      ≠ unpackBytesGo ((chunkBlocksC c8stream).getD 0 0) 255 0 := by
  decide

/-- C8 amended: when `find_and_correct_errors` finds more than 16 error
positions or a number of positions different from `deg_lambda`, it returns
-1; and the `decode_file` loop emits, for every failed block other than
block number `total_blocks`, exactly the first 223 bytes of the received
word unchanged, counts the block in `failed_blocks`, and still emits one
chunk per block of the remaining stream. -/
theorem c8_uncorrectable_policy (bytes : List Nat) (i : Nat)
    (hi : i < (chunkBlocksC bytes).length)
    (hf : (rsDecodeBlock ((chunkBlocksC bytes).getD i 0)).1 = -1)
    (hnt : i + 1 ≠ bytes.length / 255) :
    ((decodeFile bytes).1.getD i [] = unpackBytesGo ((chunkBlocksC bytes).getD i 0) 223 0)
    ∧ (decodeFile bytes).1.length = (chunkBlocksC bytes).length
    ∧ (decodeFile bytes).2.2
        = (chunkBlocksC bytes).countP (fun b => (rsDecodeBlock b).1 == -1)
    ∧ (∀ lam om dL cor, (16 < chienZeroCount lam dL ∨ chienZeroCount lam dL ≠ dL) →
        (findAndCorrectErrors lam om dL cor).1 = -1) := by
  refine ⟨?_, (decodeFileGo_spec _ _ 0).1, (decodeFileGo_spec _ _ 0).2.1, ?_⟩
  · exact (decodeFileGo_spec (bytes.length / 255) (chunkBlocksC bytes) 0).2.2 i hi hf
      (by omega)
  · intro lam om dL cor h
    unfold findAndCorrectErrors chienZeroCount at *
    rw [facGo_count lam om dL 255 0 0 cor (by omega), List.range_eq_range'] at *
    rcases h with h | h
    · rw [if_pos (by omega)]
    · by_cases h16 : 16 < (List.range' 0 255).countP (fun t => chienSum lam dL t == 0)
      · rw [if_pos (by omega)]
      · rw [if_neg (by omega), if_neg (by omega)]

set_option maxRecDepth 8000 in
/-- Witness for C8 on `c8stream`: its first block decodes to -1 and is not
the trim block. -/
theorem c8_uncorrectable_policy_witness :
    0 < (chunkBlocksC c8stream).length
    ∧ (rsDecodeBlock ((chunkBlocksC c8stream).getD 0 0)).1 = -1
    ∧ 0 + 1 ≠ c8stream.length / 255
    ∧ (((decodeFile c8stream).1.getD 0 []
          = unpackBytesGo ((chunkBlocksC c8stream).getD 0 0) 223 0)
       ∧ (decodeFile c8stream).1.length = (chunkBlocksC c8stream).length
       ∧ (decodeFile c8stream).2.2
           = (chunkBlocksC c8stream).countP (fun b => (rsDecodeBlock b).1 == -1)
       ∧ (∀ lam om dL cor, (16 < chienZeroCount lam dL ∨ chienZeroCount lam dL ≠ dL) →
           (findAndCorrectErrors lam om dL cor).1 = -1)) :=
  ⟨by decide, by decide, by decide,
   c8_uncorrectable_policy c8stream 0 (by decide) (by decide) (by decide)⟩

theorem getD_map_range {α : Type} (f : Nat → α) {n i : Nat} (d : α) (h : i < n) :
    ((List.range n).map f).getD i d = f i := by
  simp [List.getD_eq_getElem?_getD, List.getElem?_range h]

/-- The chunk passed for packet `p` is the 256-byte slice of the payload at
offset `p * 256` (shorter at the end of the payload): the explicit
`chunk_size` computation of the C code agrees with take-after-drop. -/
theorem chunkFor_eq (data : List Nat) (p : Nat) :
    chunkFor data p = (data.drop (p * 256)).take 256 := by
  unfold chunkFor
  split
  · next h =>
    rw [List.take_of_length_le (by simp), List.take_of_length_le (by simp; omega)]
  · rfl

/-- Concatenating the 256-byte slices at offsets 0, 256, ... reproduces any
list of length at most `n * 256`. -/
theorem chunks_flatten : ∀ (n : Nat) (l : List Nat), l.length ≤ n * 256 →
    ((List.range n).map (fun p => (l.drop (p * 256)).take 256)).flatten = l := by
  intro n
  induction n with
  | zero =>
    intro l h
    have hl : l = [] := List.eq_nil_of_length_eq_zero (by simpa using h)
    simp [hl]
  | succ m ih =>
    intro l h
    rw [List.range_succ_eq_map, List.map_cons, List.map_map, List.flatten_cons]
    have hmap : (List.range m).map ((fun p => (l.drop (p * 256)).take 256) ∘ Nat.succ)
        = (List.range m).map (fun p => ((l.drop 256).drop (p * 256)).take 256) := by
      apply List.map_congr_left
      intro a _
      show (l.drop ((a + 1) * 256)).take 256 = ((l.drop 256).drop (a * 256)).take 256
      rw [List.drop_drop, show 256 + a * 256 = (a + 1) * 256 by ring]
    rw [hmap, ih (l.drop 256) (by simp; omega)]
    simp

/-- C4: for a non-empty payload the packetizer passes exactly
`ceil(L/256) = (L + 255) / 256` frames to the frame builder; frame `i`
carries sequence `i` and the shared total; a single frame is DATA_HEADER,
otherwise frame 0 is DATA_FIRST, the last frame DATA_END and all middle
frames DATA; every chunk except the final one is exactly 256 bytes, the
final one holds the remaining `L - (total-1)*256` bytes; and the chunks
concatenated in sequence order reproduce the payload. -/
theorem c4_packetization (data : List Nat) (hpos : 0 < data.length) :
    (packetizationFrames data).length = (data.length + 255) / 256
    ∧ (∀ i, i < (data.length + 255) / 256 →
        ((packetizationFrames data).getD i (FrameType.beacon, 0, 0, [])).2.1 = i
        ∧ ((packetizationFrames data).getD i (FrameType.beacon, 0, 0, [])).2.2.1
            = (data.length + 255) / 256)
    ∧ ((data.length + 255) / 256 = 1 →
        ((packetizationFrames data).getD 0 (FrameType.beacon, 0, 0, [])).1
          = FrameType.dataHeader)
    ∧ (1 < (data.length + 255) / 256 → ∀ i, i < (data.length + 255) / 256 →
        ((packetizationFrames data).getD i (FrameType.beacon, 0, 0, [])).1 =
          (if i = 0 then FrameType.dataFirst
           else if i = (data.length + 255) / 256 - 1 then FrameType.dataEnd
           else FrameType.dataMid))
    ∧ (∀ i, i + 1 < (data.length + 255) / 256 →
        ((packetizationFrames data).getD i (FrameType.beacon, 0, 0, [])).2.2.2.length = 256)
    ∧ (((packetizationFrames data).getD ((data.length + 255) / 256 - 1)
          (FrameType.beacon, 0, 0, [])).2.2.2.length
        = data.length - ((data.length + 255) / 256 - 1) * 256)
    ∧ ((packetizationFrames data).map (fun f => f.2.2.2)).flatten = data := by
  refine ⟨?_, ?_, ?_, ?_, ?_, ?_, ?_⟩
  · simp [packetizationFrames]
  · intro i hi
    unfold packetizationFrames
    rw [getD_map_range _ _ hi]
    exact ⟨rfl, rfl⟩
  · intro h1
    unfold packetizationFrames
    rw [getD_map_range _ _ (by omega)]
    simp [frameTypeFor, h1]
  · intro h1 i hi
    unfold packetizationFrames
    rw [getD_map_range _ _ hi]
    unfold frameTypeFor
    rw [if_neg (show ¬ (data.length + 255) / 256 = 1 by omega)]
  · intro i hi
    unfold packetizationFrames
    rw [getD_map_range _ _ (by omega)]
    simp only [chunkFor_eq, List.length_take, List.length_drop]
    omega
  · unfold packetizationFrames
    rw [getD_map_range _ _ (by omega)]
    simp only [chunkFor_eq, List.length_take, List.length_drop]
    omega
  · unfold packetizationFrames
    rw [List.map_map]
    rw [show ((fun (f : FrameType × Nat × Nat × List Nat) => f.2.2.2) ∘
        (fun p => (frameTypeFor p ((data.length + 255) / 256), p,
                   (data.length + 255) / 256, chunkFor data p)))
      = fun p => (data.drop (p * 256)).take 256 from funext fun p => chunkFor_eq data p]
    exact chunks_flatten _ data (by omega)

/-- Witness for C4 on a 300-byte payload (two frames of 256 and 44 bytes). -/
theorem c4_packetization_witness :
    0 < (List.replicate 300 7 : List Nat).length
    ∧ ((packetizationFrames (List.replicate 300 7)).length
        = ((List.replicate 300 7 : List Nat).length + 255) / 256
      ∧ (∀ i, i < ((List.replicate 300 7 : List Nat).length + 255) / 256 →
          ((packetizationFrames (List.replicate 300 7)).getD i (FrameType.beacon, 0, 0, [])).2.1 = i
          ∧ ((packetizationFrames (List.replicate 300 7)).getD i (FrameType.beacon, 0, 0, [])).2.2.1
              = ((List.replicate 300 7 : List Nat).length + 255) / 256)
      ∧ (((List.replicate 300 7 : List Nat).length + 255) / 256 = 1 →
          ((packetizationFrames (List.replicate 300 7)).getD 0 (FrameType.beacon, 0, 0, [])).1
            = FrameType.dataHeader)
      ∧ (1 < ((List.replicate 300 7 : List Nat).length + 255) / 256 →
          ∀ i, i < ((List.replicate 300 7 : List Nat).length + 255) / 256 →
          ((packetizationFrames (List.replicate 300 7)).getD i (FrameType.beacon, 0, 0, [])).1 =
            (if i = 0 then FrameType.dataFirst
             else if i = ((List.replicate 300 7 : List Nat).length + 255) / 256 - 1
               then FrameType.dataEnd
             else FrameType.dataMid))
      ∧ (∀ i, i + 1 < ((List.replicate 300 7 : List Nat).length + 255) / 256 →
          ((packetizationFrames (List.replicate 300 7)).getD i
            (FrameType.beacon, 0, 0, [])).2.2.2.length = 256)
      ∧ (((packetizationFrames (List.replicate 300 7)).getD
            (((List.replicate 300 7 : List Nat).length + 255) / 256 - 1)
            (FrameType.beacon, 0, 0, [])).2.2.2.length
          = (List.replicate 300 7 : List Nat).length
            - (((List.replicate 300 7 : List Nat).length + 255) / 256 - 1) * 256)
      ∧ ((packetizationFrames (List.replicate 300 7)).map (fun f => f.2.2.2)).flatten
          = List.replicate 300 7) :=
  ⟨by simp, c4_packetization (List.replicate 300 7) (by simp)⟩
